import Mathlib

/-!
Verification of the knowledge ingestion and retrieval engine of the
ESTsoft chatbot repository.

The development shallowly embeds the core Python modules:

* `backend/retriever.py` — `Retriever.search` and its confidence gate;
* `backend/embedder.py`  — `Embedder.embed` and its retry/backoff loop;
* `scripts/build_embeddings.py` — `load_qa_pairs` (the alternating Q/A
  row parser), `build_points` (MD5-keyed index points) and `main`
  (the ingestion pipeline).

Python strings are modelled by `String`, floats by `ℚ`, machine words in
the MD5 model by `ℕ` reduced modulo `2 ^ 32`, dictionaries with optional
keys by `Option` fields, and raised exceptions by `Except` results.
Side-effect traces (network attempts, sleeps, upserts) are made explicit
as data so that claims about them can be stated.
-/

namespace Retriever

/-- The payload stored with a Qdrant point, as read back by a search hit.
`question`/`source` are `none` when the key is missing from the payload
dictionary; `answer` is `none` when the key is missing and `some none`
when the key is present but holds a null value (`payload.get("answer")`
returns `None` in both cases). -/
structure Payload where
  question : Option String
  answer : Option (Option String)
  source : Option String
deriving DecidableEq

/-- A search hit returned by the vector index: a similarity score (the
code guards against a null score) and an optional payload. -/
structure Hit where
  score : Option ℚ
  payload : Option Payload
deriving DecidableEq

/-- The dictionary returned by `Retriever.search`: `answer` and `score`
keys are always present; `question`, `source` and `warning` only
sometimes, which `Option` records. -/
structure SearchResult where
  answer : String
  score : Option ℚ
  question : Option String
  source : Option String
  warning : Option String
deriving DecidableEq

/-- The fixed no-results answer text from `retriever.py`. -/
def noResultsText : String := "검색 결과가 없습니다."

/-- The low-confidence warning text from `retriever.py`. -/
def lowConfidenceWarning : String := "⚠️ 신뢰도 낮음(score<threshold)"

/-- `top_hit.payload or` the empty dict: a null payload is replaced by a
payload with no keys. -/
def effectivePayload (h : Hit) : Payload := h.payload.getD ⟨none, none, none⟩

/-- `payload.get("answer")`: `None` when the key is missing or its value
is null. -/
def payloadAnswer (p : Payload) : Option String :=
  match p.answer with
  | some v => v
  | none => none

/-- `answer or "검색 결과가 없습니다."`: the fallback replaces a missing,
null or empty (falsy) answer. -/
def resultAnswer (p : Payload) : String :=
  match payloadAnswer p with
  | some s => if s = "" then noResultsText else s
  | none => noResultsText

/-- `Retriever.search` after the index returned `hits`, from
`retriever.py` lines 63–87.  `threshold` is `settings.sim_threshold`
(default `0.82`). -/
def search (threshold : ℚ) (hits : List Hit) : SearchResult :=
  match hits with
  | [] =>
      { answer := noResultsText
        score := none
        question := none
        source := none
        warning := some lowConfidenceWarning }
  | top :: _ =>
      let payload := effectivePayload top
      { answer := resultAnswer payload
        score := top.score
        question := payload.question
        source := payload.source
        warning :=
          match top.score with
          | none => some lowConfidenceWarning
          | some s => if s < threshold then some lowConfidenceWarning else none }

end Retriever

namespace Embedder

/-- A transient failure of one embedding attempt: the
`except (OpenAIError, httpx.HTTPError)` clause of `embedder.py`. -/
inductive TransientError where
  | openAIError (msg : String)
  | httpError (msg : String)
deriving DecidableEq

/-- The `EmbeddingError` exception of `embedder.py`: raised on empty
input, or after exhausting retries (wrapping the last cause via
`raise ... from exc`; the unreachable fall-through raise carries no
cause). -/
inductive EmbeddingError where
  | emptyText
  | exhausted (cause : TransientError)
  | exhaustedNoCause
deriving DecidableEq

instance {ε α : Type} [DecidableEq ε] [DecidableEq α] : DecidableEq (Except ε α) := fun x y =>
  match x, y with
  | .ok a, .ok b => if h : a = b then .isTrue (by rw [h]) else .isFalse (by simp [h])
  | .error a, .error b => if h : a = b then .isTrue (by rw [h]) else .isFalse (by simp [h])
  | .ok _, .error _ => .isFalse (by simp)
  | .error _, .ok _ => .isFalse (by simp)

/-- Observable behaviour of one `Embedder.embed` call: the returned
vector or raised error, how many provider attempts were made, and the
sequence of back-off sleeps (in seconds) in order. -/
structure EmbedTrace where
  result : Except EmbeddingError (List ℚ)
  calls : ℕ
  delays : List ℚ
deriving DecidableEq

/-- `self._max_retries = 3` from the `Embedder` constructor. -/
def maxRetries : ℕ := 3

/-- `self._retry_delay = 2.0` from the `Embedder` constructor. -/
def retryDelay : ℚ := 2

/-- The `for attempt in range(1, self._max_retries + 1)` loop of
`Embedder.embed`.  `provider attempt` is the outcome of the
`embeddings.create` call on that attempt. -/
def embedGo (provider : ℕ → Except TransientError (List ℚ)) :
    List ℕ → ℕ → List ℚ → EmbedTrace
  | [], calls, delays => ⟨.error .exhaustedNoCause, calls, delays⟩
  | attempt :: rest, calls, delays =>
      match provider attempt with
      | .ok v => ⟨.ok v, calls + 1, delays⟩
      | .error e =>
          if maxRetries ≤ attempt then ⟨.error (.exhausted e), calls + 1, delays⟩
          else embedGo provider rest (calls + 1) (delays ++ [retryDelay * (attempt : ℚ)])

/-- `Embedder.embed` from `embedder.py` lines 30–52: reject empty text
before any attempt, then run the retry loop over attempts `1, 2, 3`. -/
def embed (provider : ℕ → Except TransientError (List ℚ)) (text : String) : EmbedTrace :=
  if text = "" then ⟨.error .emptyText, 0, []⟩
  else embedGo provider (List.range' 1 maxRetries) 0 []

end Embedder

namespace BuildEmbeddings

/-- A cell of the numeric group column (column B).  `missing` is a cell
`pd.isna` accepts (NaN or None); `intLike n` is a non-null value that
`int(...)` converts to `n` (integers, floats, numeric strings);
`bad` is a non-null value that `int(...)` rejects. -/
inductive GroupCell where
  | missing
  | intLike (n : ℤ)
  | bad
deriving DecidableEq

/-- One spreadsheet row as seen by `load_qa_pairs`: the group cell of
column B and the content cell of column C (`some s` when the cell holds
a string, `none` for any non-string cell). -/
structure Row where
  group : GroupCell
  content : Option String
deriving DecidableEq

/-- Python `str.strip()`: drop whitespace from both ends. -/
def pyStrip (s : String) : String :=
  ⟨((s.data.dropWhile Char.isWhitespace).reverse.dropWhile Char.isWhitespace).reverse⟩

/-- Python `str.upper()` (on the ASCII letters that matter here). -/
def pyUpper (s : String) : String := ⟨s.data.map Char.toUpper⟩

/-- Python `s[2:]`: drop the two marker characters. -/
def pySlice2 (s : String) : String := ⟨s.data.drop 2⟩

/-- `cell_value.strip() if isinstance(cell_value, str) else ""`. -/
def cellValue (c : Option String) : String :=
  match c with
  | some s => pyStrip s
  | none => ""

/-- `value.upper().startswith(marker)` for a two-character marker. -/
def startsWithMarker (m : List Char) (s : String) : Bool :=
  m.isPrefixOf (pyUpper s).data

/-- The row's trimmed content starts with case-insensitive `"Q."`. -/
def isQuestionRow (r : Row) : Bool :=
  startsWithMarker ['Q', '.'] (cellValue r.content)

/-- The row's trimmed content starts with case-insensitive `"A."`. -/
def isAnswerRow (r : Row) : Bool :=
  startsWithMarker ['A', '.'] (cellValue r.content)

/-- `value[2:].strip()`: the question text of a question row. -/
def questionText (r : Row) : String := pyStrip (pySlice2 (cellValue r.content))

/-- `answer_value[2:].strip()`: the answer text of an answer row. -/
def answerTextOf (r : Row) : String := pyStrip (pySlice2 (cellValue r.content))

/-- The group-id resolution of `load_qa_pairs` lines 77–85: take column B
at the question row; only if `pd.isna` holds there, fall back to column B
at the answer row; `none` when `int(...)` fails on the chosen value. -/
def resolveGroup (qrow arow : Row) : Option ℤ :=
  match qrow.group with
  | .intLike n => some n
  | .missing =>
      match arow.group with
      | .intLike n => some n
      | _ => none
  | .bad => none

/-- The `QAPair` dataclass of `build_embeddings.py`. -/
structure QAPair where
  question : String
  answer : String
  group_id : ℤ
  source : String
deriving DecidableEq

/-- The `ValueError`s raised by `load_qa_pairs`, with the 1-indexed row
positions their messages name. -/
inductive ExtractionError where
  | emptyQuestion (row : ℕ)
  | missingAnswer (row : ℕ)
  | expectedAnswer (qrow arow : ℕ)
  | emptyAnswer (row : ℕ)
  | invalidGroup (qrow arow : ℕ)
  | noRecords
deriving DecidableEq

/-- `f"xlsx_row_C\x7brow_idx + 1\x7d_C\x7bnext_row_idx + 1\x7d"` where
`i` is the 0-based index of the question row. -/
def mkSource (i : ℕ) : String :=
  "xlsx_row_C" ++ toString (i + 1) ++ "_C" ++ toString (i + 2)

/-- The scanning loop of `load_qa_pairs` (lines 45–92).  `i` is the
0-based index of the row at the cursor; errors carry 1-indexed
positions exactly as the raised messages do. -/
def loadAux (i : ℕ) : List Row → Except ExtractionError (List QAPair)
  | [] => .ok []
  | r :: rest =>
      if isQuestionRow r then
        if questionText r = "" then .error (.emptyQuestion (i + 1))
        else
          match rest with
          | [] => .error (.missingAnswer (i + 1))
          | r2 :: rest2 =>
              if isAnswerRow r2 then
                if answerTextOf r2 = "" then .error (.emptyAnswer (i + 2))
                else
                  match resolveGroup r r2 with
                  | none => .error (.invalidGroup (i + 1) (i + 2))
                  | some g =>
                      (loadAux (i + 2) rest2).map
                        (fun ps => ⟨questionText r, answerTextOf r2, g, mkSource i⟩ :: ps)
              else .error (.expectedAnswer (i + 1) (i + 2))
      else loadAux (i + 1) rest

/-- `load_qa_pairs` (lines 31–97): run the scan from the first row, then
reject an empty result list. -/
def load_qa_pairs (rows : List Row) : Except ExtractionError (List QAPair) :=
  match loadAux 0 rows with
  | .error e => .error e
  | .ok ps => if ps.isEmpty then .error .noRecords else .ok ps

/-- A well-formed alternating Q/A row sequence: pairs of a question row
with non-empty question text followed by an answer row with non-empty
answer text and a resolvable group id. -/
inductive WFRows : List Row → Prop where
  | nil : WFRows []
  | pair (r r2 : Row) (rest : List Row)
      (hq : isQuestionRow r = true)
      (hqt : questionText r ≠ "")
      (ha : isAnswerRow r2 = true)
      (hat : answerTextOf r2 ≠ "")
      (hg : (resolveGroup r r2).isSome = true)
      (hrest : WFRows rest) : WFRows (r :: r2 :: rest)

/-- The records `load_qa_pairs` produces from a well-formed sequence
whose first row sits at 0-based position `i`: one record per row pair,
in document order. -/
def expectedPairs (i : ℕ) : List Row → List QAPair
  | r :: r2 :: rest =>
      ⟨questionText r, answerTextOf r2, (resolveGroup r r2).getD 0, mkSource i⟩ ::
        expectedPairs (i + 2) rest
  | _ => []

end BuildEmbeddings

namespace MD5

/-- `2 ^ 32`, the word modulus. -/
def M32 : ℕ := 4294967296

def mask32 (x : ℕ) : ℕ := x % M32

def add32 (a b : ℕ) : ℕ := (a + b) % M32

/-- Bitwise complement of a 32-bit word. -/
def not32 (a : ℕ) : ℕ := 4294967295 - a % M32

/-- Rotate a 32-bit word left by `c` (for `1 ≤ c ≤ 31`). -/
def rotl32 (x c : ℕ) : ℕ := mask32 (x <<< c) ||| (x % M32) >>> (32 - c)

def funF (b c d : ℕ) : ℕ := (b &&& c) ||| (not32 b &&& d)

def funG (b c d : ℕ) : ℕ := (d &&& b) ||| (not32 d &&& c)

def funH (b c d : ℕ) : ℕ := b ^^^ c ^^^ d

def funI (b c d : ℕ) : ℕ := c ^^^ (b ||| not32 d)

/-- The 64 sine-derived round constants of MD5. -/
def K : List ℕ :=
  [3614090360, 3905402710, 606105819, 3250441966, 4118548399, 1200080426, 2821735955, 4249261313,
   1770035416, 2336552879, 4294925233, 2304563134, 1804603682, 4254626195, 2792965006, 1236535329,
   4129170786, 3225465664, 643717713, 3921069994, 3593408605, 38016083, 3634488961, 3889429448,
   568446438, 3275163606, 4107603335, 1163531501, 2850285829, 4243563512, 1735328473, 2368359562,
   4294588738, 2272392833, 1839030562, 4259657740, 2763975236, 1272893353, 4139469664, 3200236656,
   681279174, 3936430074, 3572445317, 76029189, 3654602809, 3873151461, 530742520, 3299628645,
   4096336452, 1126891415, 2878612391, 4237533241, 1700485571, 2399980690, 4293915773, 2240044497,
   1873313359, 4264355552, 2734768916, 1309151649, 4149444226, 3174756917, 718787259, 3951481745]

/-- The 64 per-round left-rotation amounts of MD5. -/
def S : List ℕ :=
  [7, 12, 17, 22, 7, 12, 17, 22, 7, 12, 17, 22, 7, 12, 17, 22,
   5, 9, 14, 20, 5, 9, 14, 20, 5, 9, 14, 20, 5, 9, 14, 20,
   4, 11, 16, 23, 4, 11, 16, 23, 4, 11, 16, 23, 4, 11, 16, 23,
   6, 10, 15, 21, 6, 10, 15, 21, 6, 10, 15, 21, 6, 10, 15, 21]

/-- Message-word index used in round `i`. -/
def gIndex (i : ℕ) : ℕ :=
  if i < 16 then i
  else if i < 32 then (5 * i + 1) % 16
  else if i < 48 then (3 * i + 5) % 16
  else (7 * i) % 16

/-- Mixing function used in round `i`. -/
def roundFun (i b c d : ℕ) : ℕ :=
  if i < 16 then funF b c d
  else if i < 32 then funG b c d
  else if i < 48 then funH b c d
  else funI b c d

/-- One of the 64 operations on the state `(a, b, c, d)`. -/
def step (m : ℕ → ℕ) (st : ℕ × ℕ × ℕ × ℕ) (i : ℕ) : ℕ × ℕ × ℕ × ℕ :=
  match st with
  | (a, b, c, d) =>
      let f := add32 (add32 (roundFun i b c d) a) (add32 (K.getD i 0) (m (gIndex i)))
      (d, add32 b (rotl32 f (S.getD i 0)), b, c)

/-- Process one 64-byte chunk, given as its 16 little-endian words. -/
def processChunk (words : List ℕ) (st : ℕ × ℕ × ℕ × ℕ) : ℕ × ℕ × ℕ × ℕ :=
  match st, (List.range 64).foldl (step fun j => words.getD j 0) st with
  | (a0, b0, c0, d0), (a, b, c, d) => (add32 a0 a, add32 b0 b, add32 c0 c, add32 d0 d)

/-- `k` little-endian bytes of `n`. -/
def leBytes : ℕ → ℕ → List ℕ
  | 0, _ => []
  | k + 1, n => n % 256 :: leBytes k (n / 256)

/-- MD5 padding: a `0x80` byte, zeros up to 56 mod 64, then the bit
length as a 64-bit little-endian number. -/
def padMessage (msg : List ℕ) : List ℕ :=
  msg ++ [128] ++ List.replicate ((119 - msg.length % 64) % 64) 0 ++
    leBytes 8 ((8 * msg.length) % 18446744073709551616)

/-- The 16 little-endian 32-bit words of a 64-byte chunk. -/
def toWords (chunk : List ℕ) : List ℕ :=
  (List.range 16).map fun j =>
    chunk.getD (4 * j) 0 + 256 * chunk.getD (4 * j + 1) 0 +
      65536 * chunk.getD (4 * j + 2) 0 + 16777216 * chunk.getD (4 * j + 3) 0

/-- Split a list into its 64-byte chunks, with enough fuel. -/
def splitChunksF : ℕ → List ℕ → List (List ℕ)
  | 0, _ => []
  | _, [] => []
  | n + 1, x :: xs => (x :: xs).take 64 :: splitChunksF n ((x :: xs).drop 64)

/-- Split a (padded) message into its 64-byte chunks. -/
def splitChunks (l : List ℕ) : List (List ℕ) := splitChunksF l.length l

/-- The MD5 digest (16 bytes) of a byte string. -/
def md5 (msg : List ℕ) : List ℕ :=
  match (splitChunks (padMessage msg)).foldl (fun st ch => processChunk (toWords ch) st)
      (1732584193, 4023233417, 2562383102, 271733878) with
  | (a, b, c, d) => leBytes 4 a ++ leBytes 4 b ++ leBytes 4 c ++ leBytes 4 d

/-- One lowercase hex digit. -/
def hexDigit (n : ℕ) : Char := if n < 10 then Char.ofNat (48 + n) else Char.ofNat (87 + n)

/-- Two lowercase hex digits of a byte. -/
def byteHex (b : ℕ) : List Char := [hexDigit (b / 16), hexDigit (b % 16)]

/-- `hexdigest()`: the lowercase hex string of a byte sequence. -/
def hexdigest (bytes : List ℕ) : String :=
  ⟨bytes.foldr (fun b acc => byteHex b ++ acc) []⟩

/-- UTF-8 encoding of one code point. -/
def utf8Char (c : Char) : List ℕ :=
  let n := c.toNat
  if n < 128 then [n]
  else if n < 2048 then [192 + n / 64, 128 + n % 64]
  else if n < 65536 then [224 + n / 4096, 128 + n / 64 % 64, 128 + n % 64]
  else [240 + n / 262144, 128 + n / 4096 % 64, 128 + n / 64 % 64, 128 + n % 64]

/-- Python `s.encode("utf-8")` as a byte list. -/
def utf8Encode (s : String) : List ℕ :=
  s.data.foldr (fun c acc => utf8Char c ++ acc) []

end MD5

namespace BuildEmbeddings

open Embedder in
/-- The payload dict built for one Q/A pair (lines 120–125). -/
structure PointPayload where
  question : String
  answer : String
  source : String
  group_id : ℤ
deriving DecidableEq

/-- A Qdrant `PointStruct` as built by `build_points`. -/
structure PointStruct where
  id : String
  vector : List ℚ
  payload : PointPayload
deriving DecidableEq

/-- `hashlib.md5(pair.question.encode("utf-8")).hexdigest()`. -/
def point_id (question : String) : String :=
  MD5.hexdigest (MD5.md5 (MD5.utf8Encode question))

/-- The point built for one pair with its embedding (lines 119–126). -/
def buildPoint (pair : QAPair) (embedding : List ℚ) : PointStruct :=
  { id := point_id pair.question
    vector := embedding
    payload :=
      { question := pair.question
        answer := pair.answer
        source := pair.source
        group_id := pair.group_id } }

/-- `build_points` (lines 113–127), with the embedder abstracted as a
function from text to a vector or a raised `EmbeddingError`.  Returns
the outcome and the number of embedding calls made: pairs are processed
in order and the first embedding failure aborts the loop. -/
def build_points (emb : String → Except Embedder.EmbeddingError (List ℚ)) :
    List QAPair → Except Embedder.EmbeddingError (List PointStruct) × ℕ
  | [] => (.ok [], 0)
  | pair :: rest =>
      match emb pair.question with
      | .error e => (.error e, 1)
      | .ok v =>
          match build_points emb rest with
          | (.ok pts, n) => (.ok (buildPoint pair v :: pts), n + 1)
          | (.error e, n) => (.error e, n + 1)

/-- Observable behaviour of one run of `main`: the exit code, the number
of embedding calls made, and the batches handed to `client.upsert`. -/
structure MainTrace where
  exitCode : ℕ
  embedCalls : ℕ
  upserts : List (List PointStruct)
deriving DecidableEq

/-- `main` (lines 130–159): extraction first — a failure there exits
with code 1 before any embedding call; then `build_points` — an
`EmbeddingError` exits with code 1 before any upsert; on success the
single `client.upsert` call receives all points. -/
def mainRun (rows : List Row) (emb : String → Except Embedder.EmbeddingError (List ℚ)) :
    MainTrace :=
  match load_qa_pairs rows with
  | .error _ => ⟨1, 0, []⟩
  | .ok pairs =>
      match build_points emb pairs with
      | (.error _, n) => ⟨1, n, []⟩
      | (.ok pts, n) => ⟨0, n, if pts.isEmpty then [] else [pts]⟩

end BuildEmbeddings

section Claims

open Retriever Embedder BuildEmbeddings

/-- C5: a zero-hit search returns exactly the fixed no-results answer,
an absent (null) score, and a low-confidence warning. -/
theorem retriever_zero_hits (threshold : ℚ) :
    Retriever.search threshold [] =
      { answer := "검색 결과가 없습니다."
        score := none
        question := none
        source := none
        warning := some "⚠️ 신뢰도 낮음(score<threshold)" } := rfl

/-- C1: with at least one hit, only the top hit determines the result;
the warning is absent exactly when the score is present and at least the
threshold, and the answer is populated from the top hit's payload
independently of the warning; concretely, at threshold 0.82 a score of
0.90 yields no warning and 0.70 yields the same answer with a warning. -/
theorem retriever_confidence_gate (threshold : ℚ) (top : Retriever.Hit)
    (rest₁ rest₂ : List Retriever.Hit) :
    Retriever.search threshold (top :: rest₁) = Retriever.search threshold (top :: rest₂) ∧
    (∀ s, top.score = some s → threshold ≤ s →
      (Retriever.search threshold (top :: rest₁)).warning = none) ∧
    (top.score = none →
      (Retriever.search threshold (top :: rest₁)).warning = some lowConfidenceWarning) ∧
    (∀ s, top.score = some s → s < threshold →
      (Retriever.search threshold (top :: rest₁)).warning = some lowConfidenceWarning) ∧
    (Retriever.search threshold (top :: rest₁)).answer = resultAnswer (effectivePayload top) ∧
    (∀ p, (Retriever.search 0.82 [⟨some 0.9, p⟩]).warning = none) ∧
    (∀ p, (Retriever.search 0.82 [⟨some 0.7, p⟩]).warning = some lowConfidenceWarning ∧
      (Retriever.search 0.82 [⟨some 0.7, p⟩]).answer =
        (Retriever.search 0.82 [⟨some 0.9, p⟩]).answer) := by
  refine ⟨rfl, ?_, ?_, ?_, rfl, ?_, ?_⟩
  · intro s hs h
    simp [Retriever.search, hs, not_lt.mpr h]
  · intro h
    simp [Retriever.search, h]
  · intro s hs h
    simp [Retriever.search, hs, h]
  · intro p
    have : ¬ ((0.9 : ℚ) < 0.82) := by norm_num
    simp [Retriever.search, this]
  · intro p
    have : ((0.7 : ℚ) < 0.82) := by norm_num
    exact ⟨by simp [Retriever.search, this], rfl⟩

/-- Witness for C1 at concrete scores 0.90 and 0.70. -/
theorem retriever_confidence_gate_witness :
    (Retriever.search 0.82 [⟨some 0.9, some ⟨some "q", some (some "ans"), some "src"⟩⟩]).warning
        = none ∧
    (Retriever.search 0.82 [⟨some 0.7, some ⟨some "q", some (some "ans"), some "src"⟩⟩]).warning
        = some lowConfidenceWarning :=
  ⟨(retriever_confidence_gate 0.82 ⟨some 0.9, some ⟨some "q", some (some "ans"), some "src"⟩⟩
      [] []).2.1 0.9 rfl (by norm_num),
   (retriever_confidence_gate 0.82 ⟨some 0.7, some ⟨some "q", some (some "ans"), some "src"⟩⟩
      [] []).2.2.2.1 0.7 rfl (by norm_num)⟩

/-- C10: every search result carries a non-empty answer string; the
fixed no-results text is substituted when the top hit's payload lacks an
answer key, holds a null answer, or holds an empty answer. -/
theorem retriever_answer_nonempty (threshold : ℚ) (hits : List Retriever.Hit) :
    (Retriever.search threshold hits).answer ≠ "" ∧
    (∀ top rest, hits = top :: rest →
      (payloadAnswer (effectivePayload top) = none ∨
       payloadAnswer (effectivePayload top) = some "") →
      (Retriever.search threshold hits).answer = noResultsText) := by
  constructor
  · cases hits with
    | nil =>
      show noResultsText ≠ ""
      decide
    | cons top rest =>
      show resultAnswer (effectivePayload top) ≠ ""
      unfold resultAnswer
      rcases payloadAnswer (effectivePayload top) with _ | s
      · show noResultsText ≠ ""
        decide
      · show (if s = "" then noResultsText else s) ≠ ""
        by_cases hs : s = ""
        · rw [if_pos hs]
          decide
        · rwa [if_neg hs]
  · rintro top rest rfl hcase
    show resultAnswer (effectivePayload top) = noResultsText
    rcases hcase with h | h <;> simp [resultAnswer, h]

/-- Witness for C10 on a payload whose answer value is the empty
string. -/
theorem retriever_answer_nonempty_witness :
    (Retriever.search 0.82 [⟨some 0.9, some ⟨none, some (some ""), none⟩⟩]).answer
      = noResultsText :=
  (retriever_answer_nonempty 0.82 [⟨some 0.9, some ⟨none, some (some ""), none⟩⟩]).2
    ⟨some 0.9, some ⟨none, some (some ""), none⟩⟩ [] rfl (Or.inr rfl)

/-- C9: embedding the empty string fails with `EmbeddingError` before
any provider attempt: zero calls, and the outcome does not depend on the
provider at all. -/
theorem embed_empty_text (provider : ℕ → Except TransientError (List ℚ)) :
    Embedder.embed provider "" = ⟨.error .emptyText, 0, []⟩ ∧
    ∀ provider2, Embedder.embed provider "" = Embedder.embed provider2 "" :=
  ⟨rfl, fun _ => rfl⟩

/-- C4: on non-empty text, if every attempt fails transiently the
embedder makes exactly 3 attempts with sleeps of 2 then 4 seconds and
raises `EmbeddingError` wrapping the third attempt's cause; a successful
attempt returns its vector at once with no further attempts. -/
theorem embedder_retry_policy (provider : ℕ → Except TransientError (List ℚ))
    (text : String) (htext : text ≠ "") :
    ((∀ a, ∃ e, provider a = .error e) →
      ∃ e3, provider 3 = .error e3 ∧
        Embedder.embed provider text = ⟨.error (.exhausted e3), 3, [2, 4]⟩) ∧
    (∀ v, provider 1 = .ok v →
      Embedder.embed provider text = ⟨.ok v, 1, []⟩) ∧
    (∀ e1 v, provider 1 = .error e1 → provider 2 = .ok v →
      Embedder.embed provider text = ⟨.ok v, 2, [2]⟩) ∧
    (∀ e1 e2 v, provider 1 = .error e1 → provider 2 = .error e2 → provider 3 = .ok v →
      Embedder.embed provider text = ⟨.ok v, 3, [2, 4]⟩) := by
  have hrange : List.range' 1 maxRetries = [1, 2, 3] := rfl
  have hd1 : retryDelay * ((1 : ℕ) : ℚ) = 2 := by norm_num [retryDelay]
  have hd2 : retryDelay * ((2 : ℕ) : ℚ) = 4 := by norm_num [retryDelay]
  refine ⟨?_, ?_, ?_, ?_⟩
  · intro h
    obtain ⟨e1, he1⟩ := h 1
    obtain ⟨e2, he2⟩ := h 2
    obtain ⟨e3, he3⟩ := h 3
    refine ⟨e3, he3, ?_⟩
    simp [Embedder.embed, htext, hrange, embedGo, he1, he2, he3, maxRetries]
    norm_num [retryDelay]
  · intro v hv
    simp [Embedder.embed, htext, hrange, embedGo, hv]
  · intro e1 v he1 hv
    simp [Embedder.embed, htext, hrange, embedGo, he1, hv, maxRetries]
    norm_num [retryDelay]
  · intro e1 e2 v he1 he2 hv
    simp [Embedder.embed, htext, hrange, embedGo, he1, he2, hv, maxRetries]
    norm_num [retryDelay]

/-- A provider whose every attempt fails with the same transport
error. -/
def alwaysFailProvider : ℕ → Except TransientError (List ℚ) :=
  fun _ => .error (.httpError "connection reset")

/-- Witness for C4: the always-failing provider exhausts the three
attempts on input "hi". -/
theorem embedder_retry_policy_witness :
    ∃ e3, alwaysFailProvider 3 = .error e3 ∧
      Embedder.embed alwaysFailProvider "hi" = ⟨.error (.exhausted e3), 3, [2, 4]⟩ :=
  (embedder_retry_policy alwaysFailProvider "hi" (by decide)).1 (fun _ => ⟨_, rfl⟩)

end Claims

namespace BuildEmbeddings

/-- Default row used with `List.getD` when indexing row lists. -/
def defaultRow : Row := ⟨.missing, none⟩

/-- Default record used with `List.getD` when indexing record lists. -/
def defaultPair : QAPair := ⟨"", "", 0, ""⟩

/-- A trimmed text cannot start with both `"Q."` and `"A."`. -/
theorem marker_exclusive (r : Row) (h : isQuestionRow r = true) : isAnswerRow r = false := by
  simp only [isQuestionRow, isAnswerRow, startsWithMarker] at h ⊢
  cases hL : (pyUpper (cellValue r.content)).data with
  | nil => rw [hL] at h; simp [List.isPrefixOf] at h
  | cons c l =>
    rw [hL] at h
    simp only [List.isPrefixOf, Bool.and_eq_true, beq_iff_eq] at h
    rcases h with ⟨rfl, _⟩
    have hA : (('A' : Char) == 'Q') = false := by decide
    simp [List.isPrefixOf, hA]

/-- A non-question row at the cursor is skipped. -/
theorem loadAux_skip (i : ℕ) (r : Row) (rest : List Row)
    (h : isQuestionRow r = false) : loadAux i (r :: rest) = loadAux (i + 1) rest := by
  rw [loadAux.eq_def]
  simp [h]

/-- A valid question/answer pair at the cursor produces its record and
advances past both rows. -/
theorem loadAux_pair (i : ℕ) (r r2 : Row) (rest : List Row)
    (hq : isQuestionRow r = true) (hqt : questionText r ≠ "")
    (ha : isAnswerRow r2 = true) (hat : answerTextOf r2 ≠ "")
    (g : ℤ) (hg : resolveGroup r r2 = some g) :
    loadAux i (r :: r2 :: rest) =
      (loadAux (i + 2) rest).map
        (fun ps => ⟨questionText r, answerTextOf r2, g, mkSource i⟩ :: ps) := by
  rw [loadAux.eq_def]
  simp [hq, hqt, ha, hat, hg]

/-- On a well-formed sequence the scan succeeds with the expected
records. -/
theorem loadAux_wf {rows : List Row} (h : WFRows rows) (i : ℕ) :
    loadAux i rows = .ok (expectedPairs i rows) := by
  induction h generalizing i with
  | nil => rfl
  | pair r r2 rest hq hqt ha hat hg hrest ih =>
    obtain ⟨g, hg2⟩ := Option.isSome_iff_exists.mp hg
    rw [loadAux_pair i r r2 rest hq hqt ha hat g hg2, ih (i + 2)]
    simp [expectedPairs, hg2, Except.map]

/-- A well-formed sequence has an even number of rows. -/
theorem WFRows.length_even {rows : List Row} (h : WFRows rows) : rows.length % 2 = 0 := by
  induction h with
  | nil => rfl
  | pair r r2 rest _ _ _ _ _ _ ih =>
    simp only [List.length_cons]
    omega

/-- One expected record per row pair. -/
theorem expectedPairs_length {rows : List Row} (h : WFRows rows) (i : ℕ) :
    (expectedPairs i rows).length = rows.length / 2 := by
  induction h generalizing i with
  | nil => rfl
  | pair r r2 rest _ _ _ _ _ _ ih =>
    simp only [expectedPairs, List.length_cons, ih (i + 2)]
    omega

/-- Every expected record has non-empty question and answer text. -/
theorem expectedPairs_fields {rows : List Row} (h : WFRows rows) (i : ℕ) :
    ∀ p ∈ expectedPairs i rows, p.question ≠ "" ∧ p.answer ≠ "" := by
  induction h generalizing i with
  | nil => simp [expectedPairs]
  | pair r r2 rest hq hqt ha hat hg hrest ih =>
    intro p hp
    simp only [expectedPairs, List.mem_cons] at hp
    rcases hp with rfl | hp
    · exact ⟨hqt, hat⟩
    · exact ih (i + 2) p hp

/-- The k-th expected record is built from rows 2k and 2k+1, in
order. -/
theorem expectedPairs_getD {rows : List Row} (h : WFRows rows) :
    ∀ i k, k < (expectedPairs i rows).length →
      (expectedPairs i rows).getD k defaultPair =
        ⟨questionText (rows.getD (2 * k) defaultRow),
         answerTextOf (rows.getD (2 * k + 1) defaultRow),
         (resolveGroup (rows.getD (2 * k) defaultRow) (rows.getD (2 * k + 1) defaultRow)).getD 0,
         mkSource (i + 2 * k)⟩ := by
  induction h with
  | nil => intro i k hk; simp [expectedPairs] at hk
  | pair r r2 rest hq hqt ha hat hg hrest ih =>
    intro i k hk
    cases k with
    | zero => simp [expectedPairs]
    | succ k =>
      have hk2 : k < (expectedPairs (i + 2) rest).length := by
        simpa [expectedPairs] using hk
      have h1 : 2 * (k + 1) = 2 * k + 1 + 1 := by ring
      have h2 : 2 * (k + 1) + 1 = 2 * k + 1 + 1 + 1 := by ring
      have h3 : i + 2 + 2 * k = i + (2 * k + 1 + 1) := by ring
      simp only [expectedPairs, List.getD_cons_succ, h1, h2]
      rw [ih (i + 2) k hk2, h3]

/-- Scanning a well-formed region followed by a tail produces the
region's records and continues on the tail at the shifted cursor. -/
theorem loadAux_append {pre : List Row} (h : WFRows pre) (i : ℕ) (tail : List Row) :
    loadAux i (pre ++ tail) =
      (loadAux (i + pre.length) tail).map (fun ps => expectedPairs i pre ++ ps) := by
  induction h generalizing i with
  | nil =>
    simp only [List.nil_append, List.length_nil, Nat.add_zero]
    cases loadAux i tail <;> simp [Except.map, expectedPairs]
  | pair r r2 rest hq hqt ha hat hg hrest ih =>
    obtain ⟨g, hg2⟩ := Option.isSome_iff_exists.mp hg
    rw [List.cons_append, List.cons_append,
      loadAux_pair i r r2 (rest ++ tail) hq hqt ha hat g hg2, ih (i + 2)]
    have hlen : i + 2 + rest.length = i + (r :: r2 :: rest).length := by
      simp only [List.length_cons]
      ring
    rw [hlen]
    cases loadAux (i + (r :: r2 :: rest).length) tail <;>
      simp [Except.map, expectedPairs, hg2]

/-- If some row is a question marker whose following row is missing or
not an answer row, the scan fails (with whichever extraction error is
hit first). -/
theorem loadAux_error_of_badQ (rows : List Row) (i j : ℕ) (hj : j < rows.length)
    (hq : isQuestionRow (rows.getD j defaultRow) = true)
    (hbad : j + 1 = rows.length ∨ isAnswerRow (rows.getD (j + 1) defaultRow) = false) :
    ∃ e, loadAux i rows = .error e := by
  have hA : isAnswerRow (rows.getD (j + 1) defaultRow) = false := by
    rcases hbad with h | h
    · rw [List.getD_eq_default]
      · decide
      · omega
    · exact h
  clear hbad
  suffices H : ∀ (n : ℕ) (rows : List Row) (i j : ℕ), rows.length ≤ n → j < rows.length →
      isQuestionRow (rows.getD j defaultRow) = true →
      isAnswerRow (rows.getD (j + 1) defaultRow) = false →
      ∃ e, loadAux i rows = .error e from
    H rows.length rows i j le_rfl hj hq hA
  intro n
  induction n with
  | zero =>
    intro rows i j hlen hj hq hA
    omega
  | succ n ih =>
    intro rows i j hlen hj hq hA
    rcases rows with _ | ⟨r, rest⟩
    · simp at hj
    · cases hqr : isQuestionRow r with
      | false =>
        rw [loadAux_skip i r rest hqr]
        have hj0 : j ≠ 0 := by
          rintro rfl
          rw [List.getD_cons_zero] at hq
          rw [hq] at hqr
          cases hqr
        obtain ⟨k, rfl⟩ : ∃ k, j = k + 1 := ⟨j - 1, by omega⟩
        refine ih rest (i + 1) k ?_ ?_ ?_ ?_
        · simp only [List.length_cons] at hlen; omega
        · simp only [List.length_cons] at hj; omega
        · simpa [List.getD_cons_succ] using hq
        · simpa [List.getD_cons_succ] using hA
      | true =>
        by_cases hqt : questionText r = ""
        · exact ⟨.emptyQuestion (i + 1), by rw [loadAux.eq_def]; simp [hqr, hqt]⟩
        · rcases rest with _ | ⟨r2, rest2⟩
          · exact ⟨.missingAnswer (i + 1), by rw [loadAux.eq_def]; simp [hqr, hqt]⟩
          · cases har : isAnswerRow r2 with
            | false =>
              exact ⟨.expectedAnswer (i + 1) (i + 2),
                by rw [loadAux.eq_def]; simp [hqr, hqt, har]⟩
            | true =>
              by_cases hat : answerTextOf r2 = ""
              · exact ⟨.emptyAnswer (i + 2), by rw [loadAux.eq_def]; simp [hqr, hqt, har, hat]⟩
              · rcases hg : resolveGroup r r2 with _ | g
                · exact ⟨.invalidGroup (i + 1) (i + 2),
                    by rw [loadAux.eq_def]; simp [hqr, hqt, har, hat, hg]⟩
                · have hj0 : j ≠ 0 := by
                    rintro rfl
                    simp only [List.getD_cons_succ, List.getD_cons_zero] at hA
                    rw [har] at hA
                    cases hA
                  have hj1 : j ≠ 1 := by
                    rintro rfl
                    simp only [List.getD_cons_succ, List.getD_cons_zero] at hq
                    have := marker_exclusive r2 hq
                    rw [this] at har
                    cases har
                  obtain ⟨k, rfl⟩ : ∃ k, j = k + 2 := ⟨j - 2, by omega⟩
                  obtain ⟨e, he⟩ := ih rest2 (i + 2) k
                    (by simp only [List.length_cons] at hlen; omega)
                    (by simp only [List.length_cons] at hj; omega)
                    (by simpa [List.getD_cons_succ] using hq)
                    (by simpa [List.getD_cons_succ] using hA)
                  refine ⟨e, ?_⟩
                  rw [loadAux_pair i r r2 rest2 hqr hqt har hat g hg, he]
                  rfl

/-- A successful scan with a non-empty record list is the final result. -/
theorem load_qa_pairs_ok {rows : List Row} {ps : List QAPair}
    (hok : loadAux 0 rows = .ok ps) (hne : ps ≠ []) : load_qa_pairs rows = .ok ps := by
  unfold load_qa_pairs
  rw [hok]
  rcases ps with _ | ⟨p, ps⟩
  · exact absurd rfl hne
  · rfl

/-- A failed scan is the final result. -/
theorem load_qa_pairs_error {rows : List Row} {e : ExtractionError}
    (h : loadAux 0 rows = .error e) : load_qa_pairs rows = .error e := by
  unfold load_qa_pairs
  rw [h]

/-- C2: on a non-empty well-formed alternating Q/A sequence the
extractor succeeds with exactly rows/2 records, each having non-empty
question and answer text, and the k-th record is built from rows 2k and
2k+1 in document order with a source string naming their 1-indexed
positions. -/
theorem extractor_wellformed_rows (rows : List Row) (h : WFRows rows) (hne : rows ≠ []) :
    ∃ ps, load_qa_pairs rows = Except.ok ps ∧
      ps.length = rows.length / 2 ∧
      (∀ p ∈ ps, p.question ≠ "" ∧ p.answer ≠ "") ∧
      (∀ k, k < ps.length →
        ps.getD k defaultPair =
          ⟨questionText (rows.getD (2 * k) defaultRow),
           answerTextOf (rows.getD (2 * k + 1) defaultRow),
           (resolveGroup (rows.getD (2 * k) defaultRow) (rows.getD (2 * k + 1) defaultRow)).getD 0,
           mkSource (2 * k)⟩) := by
  have hlen := expectedPairs_length h 0
  have heven := WFRows.length_even h
  have hpos : rows.length ≠ 0 := fun h0 => hne (List.eq_nil_of_length_eq_zero h0)
  refine ⟨expectedPairs 0 rows, ?_, hlen, expectedPairs_fields h 0, ?_⟩
  · refine load_qa_pairs_ok (loadAux_wf h 0) ?_
    intro h0
    rw [h0] at hlen
    simp only [List.length_nil] at hlen
    omega
  · intro k hk
    have := expectedPairs_getD h 0 k hk
    simpa using this

/-- The end-to-end sample rows from the specification. -/
def wfSampleRows : List Row :=
  [⟨.intLike 1, some "Q. What is X?"⟩, ⟨.missing, some "A. X is Y."⟩]

/-- Witness for C2 on the sample two-row sheet. -/
theorem extractor_wellformed_rows_witness :
    ∃ ps, load_qa_pairs wfSampleRows = Except.ok ps ∧
      ps.length = wfSampleRows.length / 2 ∧
      (∀ p ∈ ps, p.question ≠ "" ∧ p.answer ≠ "") ∧
      (∀ k, k < ps.length →
        ps.getD k defaultPair =
          ⟨questionText (wfSampleRows.getD (2 * k) defaultRow),
           answerTextOf (wfSampleRows.getD (2 * k + 1) defaultRow),
           (resolveGroup (wfSampleRows.getD (2 * k) defaultRow)
             (wfSampleRows.getD (2 * k + 1) defaultRow)).getD 0,
           mkSource (2 * k)⟩) :=
  extractor_wellformed_rows wfSampleRows
    (WFRows.pair ⟨.intLike 1, some "Q. What is X?"⟩ ⟨.missing, some "A. X is Y."⟩ []
      (by decide) (by decide) (by decide) (by decide) (by decide) WFRows.nil)
    (by decide)

/-- C6: a question-marker row that is last, or is followed by a
non-answer row, makes the extractor fail; when the preceding rows form a
well-formed region the raised error names the offending 1-indexed row
positions. -/
theorem extractor_missing_answer_error :
    (∀ (rows : List Row) (j : ℕ), j < rows.length →
      isQuestionRow (rows.getD j defaultRow) = true →
      (j + 1 = rows.length ∨ isAnswerRow (rows.getD (j + 1) defaultRow) = false) →
      ∃ e, load_qa_pairs rows = Except.error e) ∧
    (∀ pre q, WFRows pre → isQuestionRow q = true → questionText q ≠ "" →
      load_qa_pairs (pre ++ [q]) = Except.error (.missingAnswer (pre.length + 1))) ∧
    (∀ pre q r2 rest, WFRows pre → isQuestionRow q = true → questionText q ≠ "" →
      isAnswerRow r2 = false →
      load_qa_pairs (pre ++ q :: r2 :: rest) =
        Except.error (.expectedAnswer (pre.length + 1) (pre.length + 2))) := by
  refine ⟨?_, ?_, ?_⟩
  · intro rows j hj hq hbad
    obtain ⟨e, he⟩ := loadAux_error_of_badQ rows 0 j hj hq hbad
    exact ⟨e, load_qa_pairs_error he⟩
  · intro pre q hpre hq hqt
    have h1 : loadAux (0 + pre.length) [q] = .error (.missingAnswer (pre.length + 1)) := by
      rw [loadAux.eq_def]
      simp [hq, hqt]
    exact load_qa_pairs_error (by rw [loadAux_append hpre 0 [q], h1]; rfl)
  · intro pre q r2 rest hpre hq hqt har
    have h1 : loadAux (0 + pre.length) (q :: r2 :: rest) =
        .error (.expectedAnswer (pre.length + 1) (pre.length + 2)) := by
      rw [loadAux.eq_def]
      simp [hq, hqt, har]
    exact load_qa_pairs_error (by rw [loadAux_append hpre 0 (q :: r2 :: rest), h1]; rfl)

/-- Witness for C6: a lone trailing question row, and a question row
followed by another question row. -/
theorem extractor_missing_answer_error_witness :
    (∃ e, load_qa_pairs [⟨.intLike 1, some "Q. lone"⟩] = Except.error e) ∧
    load_qa_pairs [⟨.intLike 1, some "Q. lone"⟩] = Except.error (.missingAnswer 1) ∧
    load_qa_pairs [⟨.intLike 1, some "Q. one"⟩, ⟨.intLike 1, some "Q. two"⟩] =
      Except.error (.expectedAnswer 1 2) :=
  ⟨extractor_missing_answer_error.1 [⟨.intLike 1, some "Q. lone"⟩] 0 (by decide) (by decide)
      (Or.inl rfl),
   extractor_missing_answer_error.2.1 [] ⟨.intLike 1, some "Q. lone"⟩ WFRows.nil
      (by decide) (by decide),
   extractor_missing_answer_error.2.2 [] ⟨.intLike 1, some "Q. one"⟩ ⟨.intLike 1, some "Q. two"⟩
      [] WFRows.nil (by decide) (by decide) (by decide)⟩

/-- C7: for a matched question/answer row pair the group id comes from
the question row's group cell; only when that cell is missing does the
answer row's cell serve as fallback; a non-convertible choice raises the
error naming both 1-indexed positions. -/
theorem extractor_group_resolution (pre : List Row) (hpre : WFRows pre) (q a : Row)
    (hq : isQuestionRow q = true) (hqt : questionText q ≠ "")
    (ha : isAnswerRow a = true) (hat : answerTextOf a ≠ "") :
    (∀ n, q.group = GroupCell.intLike n →
      load_qa_pairs (pre ++ [q, a]) =
        Except.ok (expectedPairs 0 pre ++
          [⟨questionText q, answerTextOf a, n, mkSource pre.length⟩])) ∧
    (∀ n, q.group = GroupCell.missing → a.group = GroupCell.intLike n →
      load_qa_pairs (pre ++ [q, a]) =
        Except.ok (expectedPairs 0 pre ++
          [⟨questionText q, answerTextOf a, n, mkSource pre.length⟩])) ∧
    ((q.group = GroupCell.bad ∨
      (q.group = GroupCell.missing ∧ ∀ n, a.group ≠ GroupCell.intLike n)) →
      load_qa_pairs (pre ++ [q, a]) =
        Except.error (.invalidGroup (pre.length + 1) (pre.length + 2))) := by
  have key : ∀ n, resolveGroup q a = some n →
      load_qa_pairs (pre ++ [q, a]) =
        Except.ok (expectedPairs 0 pre ++
          [⟨questionText q, answerTextOf a, n, mkSource pre.length⟩]) := by
    intro n hres
    have h1 : loadAux (0 + pre.length) [q, a] =
        .ok [⟨questionText q, answerTextOf a, n, mkSource pre.length⟩] := by
      rw [loadAux_pair (0 + pre.length) q a [] hq hqt ha hat n hres]
      simp [loadAux, Except.map]
    refine load_qa_pairs_ok ?_ (by simp)
    rw [loadAux_append hpre 0 [q, a], h1]
    rfl
  refine ⟨?_, ?_, ?_⟩
  · intro n hn
    exact key n (by simp [resolveGroup, hn])
  · intro n h1 h2
    exact key n (by simp [resolveGroup, h1, h2])
  · intro hcase
    have hres : resolveGroup q a = none := by
      rcases hcase with h | ⟨h1, h2⟩
      · simp [resolveGroup, h]
      · cases hag : a.group with
        | missing => simp [resolveGroup, h1, hag]
        | intLike n => exact absurd hag (h2 n)
        | bad => simp [resolveGroup, h1, hag]
    have h1 : loadAux (0 + pre.length) [q, a] =
        .error (.invalidGroup (pre.length + 1) (pre.length + 2)) := by
      rw [loadAux.eq_def]
      simp [hq, hqt, ha, hat, hres]
    exact load_qa_pairs_error (by rw [loadAux_append hpre 0 [q, a], h1]; rfl)

/-- Witness for C7: the question row's group cell is missing and the
answer row's cell supplies the group id 7. -/
theorem extractor_group_resolution_witness :
    load_qa_pairs [⟨GroupCell.missing, some "Q. x"⟩, ⟨GroupCell.intLike 7, some "A. y"⟩] =
      Except.ok (expectedPairs 0 [] ++
        [⟨questionText ⟨GroupCell.missing, some "Q. x"⟩,
          answerTextOf ⟨GroupCell.intLike 7, some "A. y"⟩, 7, mkSource ([] : List Row).length⟩]) :=
  (extractor_group_resolution [] WFRows.nil
      ⟨GroupCell.missing, some "Q. x"⟩ ⟨GroupCell.intLike 7, some "A. y"⟩
      (by decide) (by decide) (by decide) (by decide)).2.1 7 rfl rfl

set_option maxRecDepth 10000 in
/-- The MD5 model agrees with the reference digest of "abc"
(RFC 1321 test suite), kernel-checked. -/
theorem md5_reference_digest :
    MD5.hexdigest (MD5.md5 (MD5.utf8Encode "abc")) = "900150983cd24fb0d6963f7d28e17f72" := by
  decide

/-- C3: a point's id is the hex-encoded MD5 of the record's question
text only, so records with equal question text yield identical ids no
matter how their other fields differ, and rebuilding from the same
record is deterministic. -/
theorem point_id_depends_only_on_question :
    (∀ (pair : QAPair) (v : List ℚ),
      (buildPoint pair v).id = MD5.hexdigest (MD5.md5 (MD5.utf8Encode pair.question))) ∧
    (∀ (p1 p2 : QAPair) (v1 v2 : List ℚ), p1.question = p2.question →
      (buildPoint p1 v1).id = (buildPoint p2 v2).id) := by
  refine ⟨fun pair v => rfl, fun p1 p2 v1 v2 h => ?_⟩
  simp [buildPoint, point_id, h]

/-- Witness for C3: two records sharing a question but differing in
answer, group and source get the same id. -/
theorem point_id_depends_only_on_question_witness :
    (buildPoint ⟨"What is X?", "X is Y.", 1, "xlsx_row_C1_C2"⟩ [1, 0]).id =
      (buildPoint ⟨"What is X?", "a different answer", 9, "xlsx_row_C5_C6"⟩ []).id :=
  point_id_depends_only_on_question.2
    ⟨"What is X?", "X is Y.", 1, "xlsx_row_C1_C2"⟩
    ⟨"What is X?", "a different answer", 9, "xlsx_row_C5_C6"⟩ [1, 0] [] rfl

/-- C8: extraction failure ends the run with zero embedding calls and
zero upserts; an embedding failure during point building ends it after
`n` embedding calls with zero upserts; only a fully successful build
reaches the single upsert, which receives all points at once. -/
theorem ingestion_all_or_nothing :
    (∀ (rows : List Row) (emb : String → Except Embedder.EmbeddingError (List ℚ)) e,
      load_qa_pairs rows = .error e → mainRun rows emb = ⟨1, 0, []⟩) ∧
    (∀ (rows : List Row) (emb : String → Except Embedder.EmbeddingError (List ℚ)) pairs e n,
      load_qa_pairs rows = .ok pairs → build_points emb pairs = (.error e, n) →
      mainRun rows emb = ⟨1, n, []⟩) ∧
    (∀ (rows : List Row) (emb : String → Except Embedder.EmbeddingError (List ℚ)) pairs pts n,
      load_qa_pairs rows = .ok pairs → build_points emb pairs = (.ok pts, n) →
      mainRun rows emb = ⟨0, n, if pts.isEmpty then [] else [pts]⟩) := by
  refine ⟨?_, ?_, ?_⟩
  · intro rows emb e h
    simp [mainRun, h]
  · intro rows emb pairs e n h1 h2
    simp [mainRun, h1, h2]
  · intro rows emb pairs pts n h1 h2
    simp [mainRun, h1, h2]

/-- An embedder stand-in whose every call raises `EmbeddingError`. -/
def alwaysFailEmb : String → Except Embedder.EmbeddingError (List ℚ) :=
  fun _ => .error (.exhausted (.httpError "connection reset"))

/-- Witness for C8: an empty sheet aborts before any embedding call, and
an embedding failure on the sample sheet aborts after one call with no
upsert. -/
theorem ingestion_all_or_nothing_witness :
    mainRun [] alwaysFailEmb = ⟨1, 0, []⟩ ∧
    mainRun wfSampleRows alwaysFailEmb = ⟨1, 1, []⟩ :=
  ⟨ingestion_all_or_nothing.1 [] alwaysFailEmb .noRecords rfl,
   ingestion_all_or_nothing.2.1 wfSampleRows alwaysFailEmb
     [⟨"What is X?", "X is Y.", 1, "xlsx_row_C1_C2"⟩]
     (.exhausted (.httpError "connection reset")) 1 (by decide) rfl⟩

end BuildEmbeddings
